import Mathlib

/-!
Message panel controller (script.js)

A shallow embedding of `script.js`: the two listeners registered at load time, `sendMessage`,
the callback it hands to `setTimeout`, and `scrollToBottom`.  The document is an explicit state
(children of `#messages`, value of `#userInput`, `scrollTop` of `#messages`, pending timers) and
every handler is a function on that state.
-/

namespace Script

/-! ## Strings and `String.prototype.trim` -/

/-- A script string, as its sequence of characters (strings with unpaired surrogates are not
represented; no such code unit is white space). -/
abbrev JSString := List Char

/-- The characters removed by `trim`: ECMAScript WhiteSpace (TAB, VT, FF, ZWNBSP and the
space separators) together with LineTerminator (LF, CR, LS, PS). All of them are single
UTF-16 code units, so trimming characters and trimming code units agree. -/
def isWhiteSpace (c : Char) : Bool :=
  c.toNat == 0x0009 || c.toNat == 0x000A || c.toNat == 0x000B || c.toNat == 0x000C ||
  c.toNat == 0x000D || c.toNat == 0x0020 || c.toNat == 0x00A0 || c.toNat == 0x1680 ||
  (0x2000 ≤ c.toNat && c.toNat ≤ 0x200A) || c.toNat == 0x2028 || c.toNat == 0x2029 ||
  c.toNat == 0x202F || c.toNat == 0x205F || c.toNat == 0x3000 || c.toNat == 0xFEFF

/-- The built-in `trimStart`: drop the leading white space. -/
def trimStart (s : JSString) : JSString := s.dropWhile isWhiteSpace

/-- The built-in `trimEnd`: drop the trailing white space. -/
def trimEnd (s : JSString) : JSString := (s.reverse.dropWhile isWhiteSpace).reverse

/-- The built-in `trim` used on `input.value`: white space is removed at both ends. -/
def trim (s : JSString) : JSString := trimEnd (trimStart s)

/-! ## The document -/

/-- A `div` created by the script: its class list and its text content. -/
structure Element where
  classList : List String
  textContent : JSString
deriving DecidableEq, Repr

/-- The callbacks the script passes to `setTimeout`; there is only the arrow function of
`sendMessage`, which captures nothing. -/
inductive Callback where
  | botResponse
deriving DecidableEq, Repr

/-- A pending `setTimeout(callback, delay)`. -/
structure Timer where
  callback : Callback
  delay : Nat
deriving DecidableEq, Repr

/-- The part of the page the script reads and writes. -/
structure State where
  /-- Children of `#messages`, in document order. -/
  messages : List Element
  /-- The property `value` of `#userInput`. -/
  value : JSString
  /-- The property `scrollTop` of `#messages`. -/
  scrollTop : Nat
  /-- Timers set and not yet fired, oldest first. -/
  timers : List Timer
deriving DecidableEq, Repr

/-- What the host measures on `#messages`: the height of the content for given children and the
height of the visible box. -/
structure Layout where
  scrollHeight : List Element → Nat
  clientHeight : Nat

/-- The largest value `scrollTop` can hold for the given children. -/
def maxScrollTop (layout : Layout) (children : List Element) : Nat :=
  layout.scrollHeight children - layout.clientHeight

/-- Assignment to `scrollTop`: the host clamps the assigned value to the scrollable range. -/
def setScrollTop (layout : Layout) (s : State) (v : Nat) : State :=
  { s with scrollTop := min v (maxScrollTop layout s.messages) }

/-- The method `appendChild` of `#messages`: the node becomes the last child. -/
def appendChild (s : State) (node : Element) : State :=
  { s with messages := s.messages ++ [node] }

/-- The host function `setTimeout`: the callback is queued behind the pending ones. -/
def setTimeout (s : State) (callback : Callback) (delay : Nat) : State :=
  { s with timers := s.timers ++ [{ callback := callback, delay := delay }] }

/-! ## The script -/

/-- The function `scrollToBottom`: `messages.scrollTop = messages.scrollHeight`. -/
def scrollToBottom (layout : Layout) (s : State) : State :=
  setScrollTop layout s (layout.scrollHeight s.messages)

/-- The `div` built for the user: classes `message`, `user-message` and the trimmed text. -/
def userMessage (messageText : JSString) : Element :=
  { classList := ["message", "user-message"], textContent := messageText }

/-- The `div` built by the timer callback: classes `message`, `bot-message` and the fixed
text. -/
def botMessage : Element :=
  { classList := ["message", "bot-message"], textContent := "This is a bot response.".toList }

/-- The arrow function passed to `setTimeout`: append the bot message, then scroll. -/
def botResponse (layout : Layout) (s : State) : State :=
  scrollToBottom layout (appendChild s botMessage)

/-- The function `sendMessage`. It has no `throw` and all it calls is total on the page, so
it is a total function on states. -/
def sendMessage (layout : Layout) (s : State) : State :=
  let messageText := trim s.value
  if messageText = [] then s
  else
    let s1 := appendChild s (userMessage messageText)
    let s2 := { s1 with value := [] }
    let s3 := scrollToBottom layout s2
    setTimeout s3 Callback.botResponse 1000

/-- The `keypress` listener of `#userInput`: only the key `Enter` sends. -/
def onKeypress (layout : Layout) (key : JSString) (s : State) : State :=
  if key = "Enter".toList then sendMessage layout s else s

/-- The `click` listener of `#sendButton` is `sendMessage` itself. -/
def onClick (layout : Layout) (s : State) : State := sendMessage layout s

/-- Running a callback when its timer fires. -/
def runCallback (layout : Layout) : Callback → State → State
  | Callback.botResponse, s => botResponse layout s

/-! ## The event loop -/

/-- What can happen to the page. -/
inductive Event where
  /-- A click on `#sendButton`. -/
  | click
  /-- A `keypress` on `#userInput` with the given `event.key`. -/
  | keypress (key : JSString)
  /-- The user edits the field, whose value becomes `v`. -/
  | type (v : JSString)
  /-- The user scrolls `#messages` towards the given offset. -/
  | scroll (top : Nat)
  /-- The pending timer at position `i` fires. -/
  | timeout (i : Nat)
deriving DecidableEq, Repr

/-- One turn of the event loop. A timer event for a position with no pending timer does
nothing. -/
def step (layout : Layout) (s : State) : Event → State
  | Event.click => onClick layout s
  | Event.keypress key => onKeypress layout key s
  | Event.type v => { s with value := v }
  | Event.scroll top => setScrollTop layout s top
  | Event.timeout i =>
    match s.timers[i]? with
    | none => s
    | some t => runCallback layout t.callback { s with timers := s.timers.eraseIdx i }

/-- A sequence of turns of the event loop. -/
def run (layout : Layout) (s : State) : List Event → State
  | [] => s
  | e :: es => run layout (step layout s e) es

/-! ## Vocabulary of the specification -/

/-- A message of User origin: a child carrying the class `user-message`. -/
def isUser (e : Element) : Bool := e.classList.contains "user-message"

/-- A message of Bot origin: a child carrying the class `bot-message`. -/
def isBot (e : Element) : Bool := e.classList.contains "bot-message"

/-- An event that submits: a click, or a key press with `Enter`. -/
def isSubmit : Event → Bool
  | Event.click => true
  | Event.keypress key => key = "Enter".toList
  | _ => false

/-- An event that fires a timer. -/
def isTimeout : Event → Bool
  | Event.timeout _ => true
  | _ => false

/-- A successful submission: a submitting event that finds a non-empty trimmed input. -/
def submits (s : State) (e : Event) : Bool := isSubmit e && decide (trim s.value ≠ [])

/-- The number of successful submissions along a run. -/
def successes (layout : Layout) : State → List Event → Nat
  | _, [] => 0
  | s, e :: es => (if submits s e then 1 else 0) + successes layout (step layout s e) es

/-- The number of User messages among the children. -/
def userCount (children : List Element) : Nat := children.countP isUser

/-- The number of Bot messages among the children. -/
def botCount (children : List Element) : Nat := children.countP isBot

/-- A layout for examples: each message is 20 units high, the box shows 100 units. -/
def demoLayout : Layout := { scrollHeight := fun ms => 20 * ms.length, clientHeight := 100 }

/-- A page before anything happened, with the given text in the field. -/
def emptyPage (v : JSString) : State := { messages := [], value := v, scrollTop := 0, timers := [] }

/-- A page that already shows nine replies and is scrolled part of the way, with the given
text in the field. -/
def longPage (v : JSString) : State :=
  { messages := List.replicate 9 botMessage, value := v, scrollTop := 7, timers := [] }

/-- The shape of the children the script creates: a Bot message, or a User message whose
text is not empty and is its own trimmed form. -/
def WellFormed (m : Element) : Prop :=
  m = botMessage ∨ ∃ t : JSString, t ≠ [] ∧ trim t = t ∧ m = userMessage t

/-- Two sent messages, a click on the emptied field, and both replies, the later one first. -/
def demoEvents : List Event :=
  [Event.click, Event.type " b ".toList, Event.keypress "Enter".toList, Event.click,
   Event.timeout 1, Event.timeout 0]

/-! ## Facts about `trim` -/

theorem trim_eq (s : JSString) :
    trim s = List.rdropWhile isWhiteSpace (List.dropWhile isWhiteSpace s) := rfl

theorem dropWhile_rdropWhile_of_fixed (p : Char → Bool) (l : List Char)
    (h : l.dropWhile p = l) : (l.rdropWhile p).dropWhile p = l.rdropWhile p := by
  cases l with
  | nil => simp
  | cons a l' =>
    have hp : p a = false := by
      cases hpa : p a with
      | false => rfl
      | true =>
        exfalso
        rw [List.dropWhile_cons_of_pos hpa] at h
        have hlen := (List.dropWhile_suffix (l := l') p).length_le
        rw [h] at hlen
        simp at hlen
    have hpre : (a :: l').rdropWhile p <+: a :: l' := List.rdropWhile_prefix p (a :: l')
    cases hr : (a :: l').rdropWhile p with
    | nil => simp
    | cons b r =>
      rw [hr] at hpre
      have hb : b = a := by
        obtain ⟨t, ht⟩ := hpre
        simp at ht
        exact ht.1
      subst hb
      simp [List.dropWhile_cons, hp]

theorem trim_idempotent (s : JSString) : trim (trim s) = trim s := by
  simp only [trim_eq]
  rw [dropWhile_rdropWhile_of_fixed isWhiteSpace _ (List.dropWhile_idempotent _ _)]
  exact List.rdropWhile_idempotent _ _

theorem trim_eq_nil_iff (s : JSString) : trim s = [] ↔ ∀ c ∈ s, isWhiteSpace c = true := by
  rw [trim_eq, List.rdropWhile_eq_nil_iff]
  constructor
  · intro h c hc
    by_cases hw : isWhiteSpace c = true
    · exact hw
    · exfalso
      have hne : ∃ x ∈ s, ¬ isWhiteSpace x = true := ⟨c, hc, hw⟩
      have hd : List.dropWhile isWhiteSpace s ≠ [] := by
        intro hnil
        rw [List.dropWhile_eq_nil_iff] at hnil
        exact hw (hnil c hc)
      have h0 := List.head_dropWhile_not isWhiteSpace s hd
      have := h _ (List.head_mem hd)
      simp [this] at h0
  · intro h x hx
    exact h x ((List.dropWhile_suffix isWhiteSpace).subset hx)

/-! ## Unfolding `sendMessage` -/

theorem sendMessage_blank (layout : Layout) (s : State) (h : trim s.value = []) :
    sendMessage layout s = s := by
  simp [sendMessage, h]

theorem sendMessage_sends (layout : Layout) (s : State) (h : trim s.value ≠ []) :
    sendMessage layout s =
      { messages := s.messages ++ [userMessage (trim s.value)],
        value := [],
        scrollTop := maxScrollTop layout (s.messages ++ [userMessage (trim s.value)]),
        timers := s.timers ++ [{ callback := Callback.botResponse, delay := 1000 }] } := by
  simp [sendMessage, h, setTimeout, scrollToBottom, setScrollTop, appendChild, maxScrollTop]

theorem botResponse_eq (layout : Layout) (s : State) :
    botResponse layout s =
      { messages := s.messages ++ [botMessage],
        value := s.value,
        scrollTop := maxScrollTop layout (s.messages ++ [botMessage]),
        timers := s.timers } := by
  simp [botResponse, scrollToBottom, setScrollTop, appendChild, maxScrollTop]

theorem step_timeout_some (layout : Layout) (s : State) (i : Nat) (t : Timer)
    (h : s.timers[i]? = some t) :
    step layout s (Event.timeout i) =
      { messages := s.messages ++ [botMessage],
        value := s.value,
        scrollTop := maxScrollTop layout (s.messages ++ [botMessage]),
        timers := s.timers.eraseIdx i } := by
  cases t with
  | mk cb d =>
    cases cb
    simp [step, h, runCallback, botResponse_eq]

theorem step_timeout_none (layout : Layout) (s : State) (i : Nat)
    (h : s.timers[i]? = none) : step layout s (Event.timeout i) = s := by
  simp [step, h]

/-! ## One turn of the event loop -/

theorem enter_eq_click (layout : Layout) (s : State) :
    step layout s (Event.keypress "Enter".toList) = step layout s Event.click := by
  simp [step, onKeypress, onClick]

/-- Every turn is of one of three kinds: nothing is appended and no timer is touched; a
successful submission; a reply timer firing. -/
theorem step_cases (layout : Layout) (s : State) (e : Event) :
    (submits s e = false ∧ isTimeout e = false ∧
      (step layout s e).messages = s.messages ∧ (step layout s e).timers = s.timers) ∨
    (submits s e = false ∧ isTimeout e = true ∧ step layout s e = s) ∨
    (submits s e = true ∧ isTimeout e = false ∧ trim s.value ≠ [] ∧
      (step layout s e).messages = s.messages ++ [userMessage (trim s.value)] ∧
      (step layout s e).timers =
        s.timers ++ [{ callback := Callback.botResponse, delay := 1000 }]) ∨
    (submits s e = false ∧ isTimeout e = true ∧
      (step layout s e).messages = s.messages ++ [botMessage] ∧
      (step layout s e).timers.length + 1 = s.timers.length) := by
  cases e with
  | click =>
    by_cases h : trim s.value = []
    · left
      simp [submits, isSubmit, isTimeout, step, onClick, sendMessage_blank layout s h, h]
    · right; right; left
      simp [submits, isSubmit, isTimeout, step, onClick, sendMessage_sends layout s h, h]
  | keypress key =>
    by_cases hk : key = "Enter".toList
    · subst hk
      rw [enter_eq_click]
      by_cases h : trim s.value = []
      · left
        simp [submits, isSubmit, isTimeout, step, onClick, sendMessage_blank layout s h, h]
      · right; right; left
        simp [submits, isSubmit, isTimeout, step, onClick, sendMessage_sends layout s h, h]
    · left
      have hs : step layout s (Event.keypress key) = s := by
        unfold step onKeypress
        exact if_neg hk
      rw [hs]
      refine ⟨?_, rfl, rfl, rfl⟩
      unfold submits isSubmit
      simp only [Bool.and_eq_false_iff, decide_eq_false_iff_not]
      exact Or.inl hk
  | type v => left; simp [submits, isSubmit, isTimeout, step]
  | scroll top => left; simp [submits, isSubmit, isTimeout, step, setScrollTop]
  | timeout i =>
    cases hi : s.timers[i]? with
    | none =>
      right; left
      exact ⟨by simp [submits, isSubmit], rfl, step_timeout_none layout s i hi⟩
    | some t =>
      right; right; right
      rw [step_timeout_some layout s i t hi]
      refine ⟨by simp [submits, isSubmit], rfl, rfl, ?_⟩
      have hlt : i < s.timers.length := by
        rcases Nat.lt_or_ge i s.timers.length with hlt | hge
        · exact hlt
        · rw [List.getElem?_eq_none hge] at hi
          cases hi
      show (s.timers.eraseIdx i).length + 1 = s.timers.length
      rw [List.length_eraseIdx_of_lt hlt]
      omega

theorem step_messages_extend (layout : Layout) (s : State) (e : Event) :
    s.messages <+: (step layout s e).messages := by
  rcases step_cases layout s e with h | h | h | h
  · rw [h.2.2.1]
  · rw [h.2.2]
  · rw [h.2.2.2.1]
    exact List.prefix_append _ _
  · rw [h.2.2.1]
    exact List.prefix_append _ _

theorem run_append (layout : Layout) (s : State) (es fs : List Event) :
    run layout s (es ++ fs) = run layout (run layout s es) fs := by
  induction es generalizing s with
  | nil => rfl
  | cons e es ih => exact ih (step layout s e)

theorem run_messages_extend (layout : Layout) (s : State) (es : List Event) :
    s.messages <+: (run layout s es).messages := by
  induction es generalizing s with
  | nil => exact List.prefix_refl _
  | cons e es ih => exact (step_messages_extend layout s e).trans (ih (step layout s e))

theorem step_wellFormed (layout : Layout) (s : State) (e : Event)
    (h : ∀ m ∈ s.messages, WellFormed m) : ∀ m ∈ (step layout s e).messages, WellFormed m := by
  rcases step_cases layout s e with hc | hc | hc | hc
  · rw [hc.2.2.1]; exact h
  · rw [hc.2.2]; exact h
  · rw [hc.2.2.2.1]
    intro m hm
    rcases List.mem_append.1 hm with hm | hm
    · exact h m hm
    · rw [List.mem_singleton] at hm
      exact Or.inr ⟨trim s.value, hc.2.2.1, trim_idempotent _, hm⟩
  · rw [hc.2.2.1]
    intro m hm
    rcases List.mem_append.1 hm with hm | hm
    · exact h m hm
    · rw [List.mem_singleton] at hm
      exact Or.inl hm

theorem run_wellFormed (layout : Layout) (s : State) (es : List Event)
    (h : ∀ m ∈ s.messages, WellFormed m) : ∀ m ∈ (run layout s es).messages, WellFormed m := by
  induction es generalizing s with
  | nil => exact h
  | cons e es ih => exact ih (step layout s e) (step_wellFormed layout s e h)

theorem step_counts (layout : Layout) (s : State) (e : Event) :
    botCount (step layout s e).messages + (step layout s e).timers.length =
      botCount s.messages + s.timers.length + (if submits s e then 1 else 0) ∧
    userCount (step layout s e).messages =
      userCount s.messages + (if submits s e then 1 else 0) ∧
    (isTimeout e = false →
      (step layout s e).timers.length = s.timers.length + (if submits s e then 1 else 0)) := by
  have hu : isUser (userMessage (trim s.value)) = true := rfl
  have hb : isBot (userMessage (trim s.value)) = false := rfl
  have hu2 : isUser botMessage = false := rfl
  have hb2 : isBot botMessage = true := rfl
  rcases step_cases layout s e with hc | hc | hc | hc
  · rw [hc.2.2.1, hc.2.2.2, hc.1]; simp
  · rw [hc.2.2, hc.1, hc.2.1]; simp
  · rw [hc.2.2.2.1, hc.2.2.2.2, hc.1]
    simp [botCount, userCount, List.countP_append, List.countP_singleton, hu, hb]
    omega
  · rw [hc.2.2.1, hc.1, hc.2.1]
    have hl := hc.2.2.2
    simp [botCount, userCount, List.countP_append, List.countP_singleton, hu2, hb2]
    omega

theorem run_counts (layout : Layout) (s : State) (es : List Event) :
    botCount (run layout s es).messages + (run layout s es).timers.length =
      botCount s.messages + s.timers.length + successes layout s es ∧
    userCount (run layout s es).messages = userCount s.messages + successes layout s es ∧
    ((∀ e ∈ es, isTimeout e = false) →
      (run layout s es).timers.length = s.timers.length + successes layout s es) := by
  induction es generalizing s with
  | nil => simp [run, successes]
  | cons e es ih =>
    obtain ⟨h1, h2, h3⟩ := ih (step layout s e)
    obtain ⟨k1, k2, k3⟩ := step_counts layout s e
    simp only [run, successes]
    refine ⟨by omega, by omega, ?_⟩
    intro hall
    have he := k3 (hall e (List.mem_cons_self _ _))
    have hes := h3 (fun x hx => hall x (List.mem_cons_of_mem _ hx))
    omega

/-! ## Submission -/

/-- C1: when the trimmed input S is not empty, `sendMessage` turns the container C into C
followed by exactly one User message with text S and queues exactly one reply timer; when a
reply timer fires on a container C2, the container becomes C2 followed by exactly one Bot
message whose text is the fixed string, whatever the input was. -/
theorem sendMessage_appends_user_then_bot (layout : Layout) (s : State)
    (h : trim s.value ≠ []) :
    (sendMessage layout s).messages = s.messages ++ [userMessage (trim s.value)] ∧
    isUser (userMessage (trim s.value)) = true ∧
    isBot (userMessage (trim s.value)) = false ∧
    (userMessage (trim s.value)).textContent = trim s.value ∧
    (sendMessage layout s).timers =
      s.timers ++ [{ callback := Callback.botResponse, delay := 1000 }] ∧
    (∀ (s2 : State) (i : Nat),
      s2.timers[i]? = some { callback := Callback.botResponse, delay := 1000 } →
        (step layout s2 (Event.timeout i)).messages = s2.messages ++ [botMessage] ∧
        (step layout s2 (Event.timeout i)).timers = s2.timers.eraseIdx i) ∧
    isBot botMessage = true ∧
    isUser botMessage = false ∧
    botMessage.textContent = "This is a bot response.".toList := by
  refine ⟨?_, rfl, rfl, rfl, ?_, ?_, rfl, rfl, rfl⟩
  · rw [sendMessage_sends layout s h]
  · rw [sendMessage_sends layout s h]
  · intro s2 i hi
    rw [step_timeout_some layout s2 i _ hi]
    exact ⟨rfl, rfl⟩

theorem sendMessage_appends_user_then_bot_witness :
    trim (emptyPage " Hello ".toList).value ≠ [] ∧
    (sendMessage demoLayout (emptyPage " Hello ".toList)).messages =
      (emptyPage " Hello ".toList).messages ++
        [userMessage (trim (emptyPage " Hello ".toList).value)] :=
  ⟨by decide,
   (sendMessage_appends_user_then_bot demoLayout (emptyPage " Hello ".toList) (by decide)).1⟩

/-- C2: when the input is empty or holds only white space, `sendMessage` returns the state it
was given: container (hence its length), input value, scroll position and pending timers are
all unchanged, and the total function signals nothing. -/
theorem sendMessage_blank_is_noop (layout : Layout) (s : State)
    (h : ∀ c ∈ s.value, isWhiteSpace c = true) :
    sendMessage layout s = s ∧
    (sendMessage layout s).messages = s.messages ∧
    (sendMessage layout s).messages.length = s.messages.length ∧
    (sendMessage layout s).value = s.value ∧
    (sendMessage layout s).scrollTop = s.scrollTop ∧
    (sendMessage layout s).timers = s.timers := by
  have hs : sendMessage layout s = s := sendMessage_blank layout s ((trim_eq_nil_iff _).2 h)
  rw [hs]
  exact ⟨rfl, rfl, rfl, rfl, rfl, rfl⟩

theorem sendMessage_blank_is_noop_witness :
    (∀ c ∈ (longPage "   ".toList).value, isWhiteSpace c = true) ∧
    sendMessage demoLayout (longPage "   ".toList) = longPage "   ".toList :=
  ⟨by decide, (sendMessage_blank_is_noop demoLayout (longPage "   ".toList) (by decide)).1⟩

/-- C3: when the trimmed input is not empty, the input value is the empty string once
`sendMessage` has returned; a timer firing never writes the input value, so after the reply
the field still holds what the user typed in the meantime. -/
theorem sendMessage_clears_input_reply_keeps_it (layout : Layout) (s : State)
    (h : trim s.value ≠ []) :
    (sendMessage layout s).value = [] ∧
    (∀ (s2 : State) (i : Nat), (step layout s2 (Event.timeout i)).value = s2.value) ∧
    (∀ (w : JSString) (i : Nat),
      (run layout s [Event.click, Event.type w, Event.timeout i]).value = w) := by
  have hfire : ∀ (s2 : State) (i : Nat), (step layout s2 (Event.timeout i)).value = s2.value := by
    intro s2 i
    cases hi : s2.timers[i]? with
    | none => rw [step_timeout_none layout s2 i hi]
    | some t => rw [step_timeout_some layout s2 i t hi]
  refine ⟨?_, hfire, ?_⟩
  · rw [sendMessage_sends layout s h]
  · intro w i
    simp only [run]
    rw [hfire]
    rfl

theorem sendMessage_clears_input_reply_keeps_it_witness :
    trim (emptyPage "Hi".toList).value ≠ [] ∧
    (sendMessage demoLayout (emptyPage "Hi".toList)).value = [] ∧
    (run demoLayout (emptyPage "Hi".toList)
      [Event.click, Event.type "next".toList, Event.timeout 0]).value = "next".toList :=
  ⟨by decide,
   (sendMessage_clears_input_reply_keeps_it demoLayout (emptyPage "Hi".toList) (by decide)).1,
   (sendMessage_clears_input_reply_keeps_it demoLayout (emptyPage "Hi".toList) (by decide)).2.2
      "next".toList 0⟩

/-- C4: after the User message is appended by `sendMessage`, and after the Bot message is
appended by the timer callback, the scroll position is the largest scroll position of the
container measured with the new message already in it. -/
theorem scroll_is_at_bottom_after_append (layout : Layout) (s : State)
    (h : trim s.value ≠ []) :
    (sendMessage layout s).scrollTop =
      maxScrollTop layout (s.messages ++ [userMessage (trim s.value)]) ∧
    (sendMessage layout s).scrollTop = maxScrollTop layout (sendMessage layout s).messages ∧
    (∀ s2 : State,
      (botResponse layout s2).scrollTop = maxScrollTop layout (s2.messages ++ [botMessage]) ∧
      (botResponse layout s2).scrollTop = maxScrollTop layout (botResponse layout s2).messages) ∧
    (∀ (s2 : State) (i : Nat) (t : Timer), s2.timers[i]? = some t →
      (step layout s2 (Event.timeout i)).scrollTop =
        maxScrollTop layout (step layout s2 (Event.timeout i)).messages) := by
  refine ⟨?_, ?_, ?_, ?_⟩
  · rw [sendMessage_sends layout s h]
  · rw [sendMessage_sends layout s h]
  · intro s2
    rw [botResponse_eq]
    exact ⟨rfl, rfl⟩
  · intro s2 i t hi
    rw [step_timeout_some layout s2 i t hi]

theorem scroll_is_at_bottom_after_append_witness :
    trim (longPage "Hi".toList).value ≠ [] ∧
    (sendMessage demoLayout (longPage "Hi".toList)).scrollTop =
      maxScrollTop demoLayout
        ((longPage "Hi".toList).messages ++ [userMessage (trim (longPage "Hi".toList).value)]) :=
  ⟨by decide,
   (scroll_is_at_bottom_after_append demoLayout (longPage "Hi".toList) (by decide)).1⟩

/-! ## The two triggers -/

/-- C5: in every state, whatever the input holds, a key press with key `Enter` on the input
field leaves exactly the state that a click on the send button leaves. -/
theorem enter_keypress_same_as_click (layout : Layout) (s : State) :
    step layout s (Event.keypress "Enter".toList) = step layout s Event.click := by
  simp [step, onKeypress, onClick]

/-- C10: in every state, a key press whose key is not `Enter` leaves the whole state as it
was, also when the input holds text that could be sent. -/
theorem other_keypress_is_noop (layout : Layout) (s : State) (key : JSString)
    (h : key ≠ "Enter".toList) : step layout s (Event.keypress key) = s := by
  unfold step onKeypress
  exact if_neg h

theorem other_keypress_is_noop_witness :
    "a".toList ≠ "Enter".toList ∧
    step demoLayout (emptyPage "Hello".toList) (Event.keypress "a".toList) =
      emptyPage "Hello".toList :=
  ⟨by decide, other_keypress_is_noop demoLayout (emptyPage "Hello".toList) "a".toList (by decide)⟩

/-- C8: `sendMessage` changes the message container exactly when the trimmed input is not
empty. -/
theorem sendMessage_changes_container_iff (layout : Layout) (s : State) :
    (sendMessage layout s).messages ≠ s.messages ↔ trim s.value ≠ [] := by
  by_cases h : trim s.value = []
  · simp [sendMessage_blank layout s h, h]
  · simp [sendMessage_sends layout s h, h]

/-! ## Invariants of the event loop -/

/-- C6: the container is append-only and keeps arrival order: along every sequence of clicks,
key presses, edits, scrolls and timer firings, the contents before an event are a prefix of
the contents after it, the initial contents are a prefix of the final contents, and the
length never decreases. -/
theorem container_is_append_only (layout : Layout) (s : State) (es : List Event) (e : Event) :
    (run layout s es).messages <+: (run layout s (es ++ [e])).messages ∧
    s.messages <+: (run layout s es).messages ∧
    s.messages.length ≤ (run layout s es).messages.length ∧
    (run layout s es).messages.length ≤ (run layout s (es ++ [e])).messages.length := by
  have h1 : (run layout s es).messages <+: (run layout s (es ++ [e])).messages := by
    rw [run_append]
    exact step_messages_extend layout (run layout s es) e
  exact ⟨h1, run_messages_extend layout s es, (run_messages_extend layout s es).length_le,
    h1.length_le⟩

/-- C7: replies are never dropped or merged. From a page with an empty container and no
pending timer: while no timer has fired, the pending replies are as many as the successful
submissions; in every reachable state the Bot messages plus the pending replies are as many
as the successful submissions; and once no reply is pending the container holds as many User
messages and as many Bot messages as there were successful submissions. -/
theorem replies_match_submissions (layout : Layout) (s0 : State) (es : List Event)
    (hm : s0.messages = []) (ht : s0.timers = []) :
    ((∀ e ∈ es, isTimeout e = false) →
      (run layout s0 es).timers.length = successes layout s0 es) ∧
    botCount (run layout s0 es).messages + (run layout s0 es).timers.length =
      successes layout s0 es ∧
    userCount (run layout s0 es).messages = successes layout s0 es ∧
    ((run layout s0 es).timers = [] →
      userCount (run layout s0 es).messages = successes layout s0 es ∧
      botCount (run layout s0 es).messages = successes layout s0 es) := by
  obtain ⟨h1, h2, h3⟩ := run_counts layout s0 es
  rw [hm, ht] at h1
  rw [hm] at h2
  rw [ht] at h3
  simp only [botCount, userCount, List.countP_nil, List.length_nil, Nat.zero_add] at h1 h2 h3
  refine ⟨h3, h1, h2, ?_⟩
  intro hnil
  rw [hnil] at h1
  exact ⟨h2, by simpa using h1⟩

theorem replies_match_submissions_witness :
    (emptyPage "a".toList).messages = [] ∧ (emptyPage "a".toList).timers = [] ∧
    successes demoLayout (emptyPage "a".toList) demoEvents = 2 ∧
    (run demoLayout (emptyPage "a".toList) demoEvents).timers = [] ∧
    botCount (run demoLayout (emptyPage "a".toList) demoEvents).messages +
        (run demoLayout (emptyPage "a".toList) demoEvents).timers.length =
      successes demoLayout (emptyPage "a".toList) demoEvents ∧
    userCount (run demoLayout (emptyPage "a".toList) demoEvents).messages =
      successes demoLayout (emptyPage "a".toList) demoEvents :=
  ⟨rfl, rfl, by decide, by decide,
   (replies_match_submissions demoLayout (emptyPage "a".toList) demoEvents rfl rfl).2.1,
   (replies_match_submissions demoLayout (emptyPage "a".toList) demoEvents rfl rfl).2.2.1⟩

/-- C9: trimming is idempotent, so from a page with an empty container every User message
in every reachable state has a text that is not empty and is its own trimmed form, and
sending that text again appends a message equal to the displayed one. -/
theorem user_messages_are_trimmed (layout : Layout) (s0 : State) (es : List Event)
    (hm : s0.messages = []) :
    (∀ v : JSString, trim (trim v) = trim v) ∧
    ∀ m ∈ (run layout s0 es).messages, isUser m = true →
      m.textContent ≠ [] ∧ trim m.textContent = m.textContent ∧
      ∀ s : State, s.value = m.textContent →
        (sendMessage layout s).messages = s.messages ++ [m] ∧
        (userMessage (trim s.value)).textContent = m.textContent := by
  refine ⟨trim_idempotent, ?_⟩
  intro m hmem hu
  have hwf := run_wellFormed layout s0 es (by rw [hm]; intro x hx; cases hx) m hmem
  rcases hwf with hbot | ⟨t, hne, htrim, hmt⟩
  · rw [hbot] at hu
    exact absurd hu (by decide)
  · subst hmt
    refine ⟨hne, htrim, ?_⟩
    intro s hs
    have hv : trim s.value = t := by rw [hs]; exact htrim
    have hne2 : trim s.value ≠ [] := by rw [hv]; exact hne
    rw [sendMessage_sends layout s hne2, hv]
    exact ⟨rfl, rfl⟩

theorem user_messages_are_trimmed_witness :
    (emptyPage "  Hello ".toList).messages = [] ∧
    ∀ m ∈ (run demoLayout (emptyPage "  Hello ".toList) [Event.click, Event.timeout 0]).messages,
      isUser m = true →
      m.textContent ≠ [] ∧ trim m.textContent = m.textContent ∧
      ∀ s : State, s.value = m.textContent →
        (sendMessage demoLayout s).messages = s.messages ++ [m] ∧
        (userMessage (trim s.value)).textContent = m.textContent :=
  ⟨rfl,
   (user_messages_are_trimmed demoLayout (emptyPage "  Hello ".toList)
      [Event.click, Event.timeout 0] rfl).2⟩

end Script
